import Mathlib

/-!
Verification of the Gist-Cloudflare recording extension and its Cloudflare
workers: a shallow embedding of the background script's chunked audio
transfer, upload retry pipeline, recording start/stop orchestration and
offscreen-document supervision, and of the storage worker's authentication
and key-derivation logic.
-/

namespace GistCloudflare

/-! ### Chunked upload sessions (background script, port transfer)

`handleInitUpload` creates `currentUploadSession` with a slot array of
`totalChunks` entries and a received counter; `handleAudioChunk` stores the
chunk at `chunks[message.chunkIndex]` and increments `receivedChunks`. -/

/-- A chunk payload: the byte contents of one `audio_chunk` message. -/
abbrev Payload := List Nat

/-- `currentUploadSession` as created by `handleInitUpload`: slot array of
`totalChunks` entries (all empty at first) and a received counter. -/
structure UploadSession where
  total : Nat
  received : Nat
  chunks : List (Option Payload)
deriving Repr, DecidableEq

/-- `handleInitUpload`: a fresh session with `receivedChunks = 0` and
`chunks = new Array(totalChunks)`. -/
def mkUploadSession (total : Nat) : UploadSession :=
  ⟨total, 0, List.replicate total none⟩

/-- Body of `handleAudioChunk` on an active session:
`chunks[message.chunkIndex] = bytes; receivedChunks++`. -/
def receiveChunk (s : UploadSession) (idx : Nat) (bytes : Payload) : UploadSession :=
  { s with chunks := s.chunks.set idx (some bytes), received := s.received + 1 }

/-- One `audio_chunk` message. -/
structure ChunkMsg where
  chunkIndex : Nat
  chunk : Payload
deriving Repr, DecidableEq

/-- Deliver a list of `audio_chunk` messages to a session, in order. -/
def runChunks (s : UploadSession) (msgs : List ChunkMsg) : UploadSession :=
  msgs.foldl (fun st m => receiveChunk st m.chunkIndex m.chunk) s

/-- The completion condition checked by `handleAudioChunk` and
`processPortUpload`: `receivedChunks === totalChunks`. -/
def assemblyTrigger (s : UploadSession) : Bool :=
  s.received == s.total

/-- The assembled payload: `new Blob(currentUploadSession.chunks, ...)`,
concatenating the slots in index order (an empty slot contributes nothing). -/
def assembled (s : UploadSession) : Payload :=
  (s.chunks.map (fun c => c.getD [])).flatten

/-- The in-order delivery of `n` chunks drawn from `bytes`. -/
def inOrderMsgs (n : Nat) (bytes : Nat → Payload) : List ChunkMsg :=
  (List.range n).map (fun i => ⟨i, bytes i⟩)

theorem runChunks_append (s : UploadSession) (a b : List ChunkMsg) :
    runChunks s (a ++ b) = runChunks (runChunks s a) b := by
  simp [runChunks, List.foldl_append]

theorem runChunks_total (s : UploadSession) (msgs : List ChunkMsg) :
    (runChunks s msgs).total = s.total := by
  induction msgs generalizing s with
  | nil => rfl
  | cons m rest ih => simpa [runChunks, receiveChunk] using ih _

theorem runChunks_received (s : UploadSession) (msgs : List ChunkMsg) :
    (runChunks s msgs).received = s.received + msgs.length := by
  induction msgs generalizing s with
  | nil => simp [runChunks]
  | cons m rest ih =>
    simp only [runChunks, List.foldl_cons] at *
    rw [ih]
    simp [receiveChunk]
    omega

theorem runChunks_chunks_length (s : UploadSession) (msgs : List ChunkMsg) :
    (runChunks s msgs).chunks.length = s.chunks.length := by
  induction msgs generalizing s with
  | nil => rfl
  | cons m rest ih =>
    simp only [runChunks, List.foldl_cons] at *
    rw [ih]
    simp [receiveChunk]

/-- After delivering each index of `ixs` exactly once (no duplicates, all
in range), slot `j` holds `bytes j` when `j` was delivered, and is untouched
otherwise. -/
theorem runChunks_getElem (bytes : Nat → Payload) (ixs : List Nat)
    (s : UploadSession) (hnd : ixs.Nodup) (hlt : ∀ i ∈ ixs, i < s.chunks.length)
    (j : Nat) (hj : j < s.chunks.length) :
    (runChunks s (ixs.map (fun i => ⟨i, bytes i⟩))).chunks.get
        ⟨j, by rw [runChunks_chunks_length]; exact hj⟩ =
      if j ∈ ixs then some (bytes j) else s.chunks[j] := by
  simp only [List.get_eq_getElem]
  induction ixs generalizing s with
  | nil => simp [runChunks]
  | cons a rest ih =>
    have ha : a < s.chunks.length := hlt a (by simp)
    have hrest : ∀ i ∈ rest, i < ((receiveChunk s a (bytes a)).chunks.length) := by
      intro i hi
      simpa [receiveChunk] using hlt i (by simp [hi])
    have hj' : j < (receiveChunk s a (bytes a)).chunks.length := by
      simpa [receiveChunk] using hj
    have := ih (receiveChunk s a (bytes a)) hnd.of_cons hrest hj'
    simp only [List.map_cons, runChunks, List.foldl_cons] at *
    rw [this]
    by_cases hmem : j ∈ rest
    · simp [hmem]
    · by_cases hja : j = a
      · subst hja
        simp [hmem, receiveChunk, List.getElem_set_self]
      · simp [hmem, hja, receiveChunk, List.getElem_set_ne (fun h => hja h.symm)]

theorem chunks_length_run (N : Nat) (bytes : Nat → Payload) (ixs : List Nat) :
    (runChunks (mkUploadSession N) (ixs.map (fun i => ⟨i, bytes i⟩))).chunks.length = N := by
  rw [runChunks_chunks_length]; simp [mkUploadSession]

/-- Delivering any duplicate-free, range-complete index list fills every slot
with its chunk. -/
theorem run_state_of_cover (N : Nat) (bytes : Nat → Payload) (ixs : List Nat)
    (hnd : ixs.Nodup) (hmem : ∀ j, j ∈ ixs ↔ j < N) (hlen : ixs.length = N) :
    runChunks (mkUploadSession N) (ixs.map (fun i => ⟨i, bytes i⟩)) =
      ⟨N, N, (List.range N).map (fun i => some (bytes i))⟩ := by
  have htot := runChunks_total (mkUploadSession N) (ixs.map (fun i => ⟨i, bytes i⟩))
  have hrec := runChunks_received (mkUploadSession N) (ixs.map (fun i => ⟨i, bytes i⟩))
  have hlen' := chunks_length_run N bytes ixs
  have hchunks : (runChunks (mkUploadSession N) (ixs.map (fun i => ⟨i, bytes i⟩))).chunks
      = (List.range N).map (fun i => some (bytes i)) := by
    apply List.ext_getElem (by simp [hlen'])
    intro j hj hj'
    have hjN : j < N := by rw [hlen'] at hj; exact hj
    have hj0 : j < (mkUploadSession N).chunks.length := by
      simpa [mkUploadSession] using hjN
    have hall : ∀ i ∈ ixs, i < (mkUploadSession N).chunks.length := by
      intro i hi
      simpa [mkUploadSession] using (hmem i).1 hi
    have hg := runChunks_getElem bytes ixs (mkUploadSession N) hnd hall j hj0
    rw [List.get_eq_getElem] at hg
    rw [hg]
    simp [(hmem j).2 hjN, hjN]
  cases hrun : runChunks (mkUploadSession N) (ixs.map (fun i => ⟨i, bytes i⟩)) with
  | mk t r cs =>
    rw [hrun] at htot hrec hchunks
    simp [mkUploadSession] at htot hrec hchunks
    simp [htot, hchunks, hrec, hlen]

/-- C1: for every chunk-transfer session with N chunks, delivery in any
permutation of 0..N-1 (each index exactly once) ends in the same session state
as in-order delivery: the count-equality assembly trigger holds and the
assembled payload is byte-identical to the in-order one. (The duplicate part
of the claim fails on the code, see the counterexample.) -/
theorem c1_permutation_assembly (N : Nat) (bytes : Nat → Payload) (perm : List Nat)
    (hp : perm.Perm (List.range N)) :
    runChunks (mkUploadSession N) (perm.map (fun i => ⟨i, bytes i⟩)) =
      runChunks (mkUploadSession N) (inOrderMsgs N bytes) ∧
    assemblyTrigger (runChunks (mkUploadSession N) (perm.map (fun i => ⟨i, bytes i⟩))) = true ∧
    assembled (runChunks (mkUploadSession N) (perm.map (fun i => ⟨i, bytes i⟩))) =
      assembled (runChunks (mkUploadSession N) (inOrderMsgs N bytes)) := by
  have hnd : perm.Nodup := hp.nodup_iff.mpr (List.nodup_range N)
  have hmem : ∀ j, j ∈ perm ↔ j < N := by
    intro j; rw [hp.mem_iff]; exact List.mem_range
  have hlen : perm.length = N := by simpa using hp.length_eq
  have h1 := run_state_of_cover N bytes perm hnd hmem hlen
  have h2 := run_state_of_cover N bytes (List.range N) (List.nodup_range N)
    (by intro j; exact List.mem_range) (by simp)
  have heq : runChunks (mkUploadSession N) (perm.map (fun i => ⟨i, bytes i⟩)) =
      runChunks (mkUploadSession N) (inOrderMsgs N bytes) := by
    rw [h1, inOrderMsgs, h2]
  refine ⟨heq, ?_, by rw [heq]⟩
  rw [h1]; simp [assemblyTrigger]

/-- C1 counterexample: with a duplicated delivery of chunk 0 in a 2-chunk
session, the received count reaches the total while slot 1 is still empty
(the trigger fires on an incomplete buffer, whose assembly differs from the
in-order payload), and once the remaining index 1 does arrive the count
overshoots the total, so the trigger never fires again even though every
unique index has been received. -/
theorem c1_duplicate_counterexample :
    (assemblyTrigger (runChunks (mkUploadSession 2) [⟨0, [1]⟩, ⟨0, [1]⟩]) = true) ∧
    ((runChunks (mkUploadSession 2) [⟨0, [1]⟩, ⟨0, [1]⟩]).chunks = [some [1], none]) ∧
    (assembled (runChunks (mkUploadSession 2) [⟨0, [1]⟩, ⟨0, [1]⟩]) ≠
      assembled (runChunks (mkUploadSession 2) (inOrderMsgs 2 (fun i => [i + 1])))) ∧
    (assemblyTrigger (runChunks (mkUploadSession 2) [⟨0, [1]⟩, ⟨0, [1]⟩, ⟨1, [2]⟩]) = false) := by
  decide

/-- C1 witness: the permutation theorem applied to the reversed delivery
order for a 3-chunk session. -/
theorem c1_permutation_assembly_witness :
    assembled (runChunks (mkUploadSession 3) ([2, 1, 0].map (fun i => ⟨i, [i]⟩))) =
      assembled (runChunks (mkUploadSession 3) (inOrderMsgs 3 (fun i => [i]))) :=
  (c1_permutation_assembly 3 (fun i => [i]) [2, 1, 0] (by decide)).2.2

/-! ### Port connection handling and upload hand-off (background script)

State of the background script's port machinery: `audioPort`,
`currentUploadSession`, `uploadInProgressId`.  `uploadsForSession` is a ghost
counter of `uploadFromPortSession` invocations since the last `init_upload`
(i.e. hand-offs of the current session's assembled payload), and
`pendingUploads` counts in-flight `uploadFromPortSession` promises. -/

structure PortState where
  audioPort : Bool
  session : Option UploadSession
  uploadInProgressId : Option Nat
  nextUploadId : Nat
  pendingUploads : Nat
  uploadsForSession : Nat
deriving Repr, DecidableEq

/-- Events the port machinery reacts to: a port (re)connecting, the port
disconnecting, the three port messages, and the asynchronous completion of a
running `uploadFromPortSession`. -/
inductive PortEvent where
  | connect
  | disconnect
  | msgInit (total : Nat)
  | msgChunk (idx : Nat) (bytes : Payload)
  | msgTransferComplete
  | uploadFinish
deriving Repr, DecidableEq

/-- `processPortUpload`: bail out unless a session exists with
`receivedChunks === totalChunks`; otherwise set `uploadInProgressId` to a
fresh id and start `uploadFromPortSession` (counted in `pendingUploads` and
in the ghost `uploadsForSession`). -/
def processPortUpload (st : PortState) : PortState :=
  match st.session with
  | none => st
  | some s =>
    if s.received ≠ s.total then st
    else
      { st with uploadInProgressId := some st.nextUploadId,
                nextUploadId := st.nextUploadId + 1,
                pendingUploads := st.pendingUploads + 1,
                uploadsForSession := st.uploadsForSession + 1 }

/-- `handleTransferComplete`: `if (!uploadInProgressId) processPortUpload()`. -/
def handleTransferComplete (st : PortState) : PortState :=
  if st.uploadInProgressId = none then processPortUpload st else st

/-- `handleInitUpload`: replace any session with a fresh one (ghost hand-off
counter restarts with the new session). -/
def handleInitUpload (st : PortState) (total : Nat) : PortState :=
  { st with session := some (mkUploadSession total), uploadsForSession := 0 }

/-- `handleAudioChunk`: store the chunk and bump the counter; then, if
`receivedChunks === totalChunks` and the port is gone, process immediately. -/
def handleAudioChunk (st : PortState) (idx : Nat) (bytes : Payload) : PortState :=
  match st.session with
  | none => st
  | some s =>
    if (receiveChunk s idx bytes).received = (receiveChunk s idx bytes).total ∧
        st.audioPort = false
    then processPortUpload { st with session := some (receiveChunk s idx bytes) }
    else { st with session := some (receiveChunk s idx bytes) }

/-- `port.onDisconnect` listener: clear `audioPort`; if a session exists with
a nonempty slot array, all chunks counted and no upload in progress, process
the upload. -/
def onPortDisconnect (st : PortState) : PortState :=
  match st.session with
  | none => { st with audioPort := false }
  | some s =>
    if s.chunks.length > 0 ∧ s.received = s.total ∧ st.uploadInProgressId = none
    then processPortUpload { st with audioPort := false }
    else { st with audioPort := false }

/-- Completion of one in-flight `uploadFromPortSession`: every exit path sets
`currentUploadSession = null` and the `finally` clears `uploadInProgressId`. -/
def handleUploadFinish (st : PortState) : PortState :=
  if st.pendingUploads > 0 then
    { st with session := none, uploadInProgressId := none,
              pendingUploads := st.pendingUploads - 1 }
  else st

def portStep (st : PortState) : PortEvent → PortState
  | .connect => { st with audioPort := true }
  | .disconnect => onPortDisconnect st
  | .msgInit total => handleInitUpload st total
  | .msgChunk idx bytes => handleAudioChunk st idx bytes
  | .msgTransferComplete => handleTransferComplete st
  | .uploadFinish => handleUploadFinish st

def initPortState : PortState :=
  ⟨false, none, none, 0, 0, 0⟩

def portRun (es : List PortEvent) : PortState :=
  es.foldl portStep initPortState

/-- Inductive invariant behind the re-entrant upload guard: the current
session's payload has been handed to `uploadFromPortSession` at most once,
and once handed off either the guard is still held or the session has been
destroyed; moreover a session that has been handed off has its received
count at (or beyond) its total, so the count-equality trigger can never
re-fire for it. -/
def PortInv (st : PortState) : Prop :=
  st.uploadsForSession ≤ 1 ∧
  (st.uploadsForSession = 1 → st.uploadInProgressId ≠ none ∨ st.session = none) ∧
  (∀ s, st.uploadsForSession = 1 → st.session = some s → s.total ≤ s.received)

theorem portInv_init : PortInv initPortState := by
  refine ⟨by simp [initPortState], by simp [initPortState], ?_⟩
  intro s h
  simp [initPortState] at h

theorem portInv_step (st : PortState) (e : PortEvent) (h : PortInv st) :
    PortInv (portStep st e) := by
  obtain ⟨h1, h2, h3⟩ := h
  have freeGuard : st.uploadInProgressId = none → ∀ s, st.session = some s →
      st.uploadsForSession = 0 := by
    intro hid s hs
    rcases Nat.lt_or_ge st.uploadsForSession 1 with hlt | hge
    · omega
    · rcases h2 (by omega) with hne | hnone
      · exact absurd hid hne
      · rw [hs] at hnone; cases hnone
  cases e with
  | connect =>
    exact ⟨h1, fun hq => h2 hq, fun s hq hs => h3 s hq hs⟩
  | msgInit total =>
    refine ⟨by simp [portStep, handleInitUpload], ?_, ?_⟩
    · intro hq
      simp [portStep, handleInitUpload] at hq
    · intro s hq hs
      simp [portStep, handleInitUpload] at hq
  | uploadFinish =>
    simp only [portStep, handleUploadFinish]
    split
    · exact ⟨h1, fun _ => Or.inr rfl, fun s _ hs => by simp at hs⟩
    · exact ⟨h1, h2, h3⟩
  | msgTransferComplete =>
    simp only [portStep, handleTransferComplete]
    split
    · rename_i hid
      simp only [processPortUpload]
      split
      · exact ⟨h1, h2, h3⟩
      · rename_i s hs
        split
        · exact ⟨h1, h2, h3⟩
        · rename_i hrt
          have h0 := freeGuard hid s hs
          simp only [not_ne_iff] at hrt
          refine ⟨by simp [h0], fun _ => Or.inl (by simp), ?_⟩
          intro s' _ hs'
          have h' : st.session = some s' := hs'
          rw [hs] at h'
          cases h'
          omega
    · exact ⟨h1, h2, h3⟩
  | disconnect =>
    simp only [portStep, onPortDisconnect]
    split
    · rename_i hnone
      refine ⟨h1, fun hq => ?_, fun s hq hs => ?_⟩
      · rcases h2 hq with hne | hn
        · exact Or.inl hne
        · exact Or.inr hn
      · exact h3 s hq hs
    · rename_i s hs
      split
      · rename_i hcond
        obtain ⟨hlen, hrt, hid⟩ := hcond
        have h0 := freeGuard hid s hs
        simp only [processPortUpload]
        split
        · rename_i hnone
          have h' : st.session = none := hnone
          rw [hs] at h'
          cases h'
        · rename_i s' hs'
          have h' : st.session = some s' := hs'
          rw [hs] at h'
          cases h'
          split
          · rename_i hne
            exact absurd hrt hne
          · refine ⟨by simp [h0], fun _ => Or.inl (by simp), ?_⟩
            intro s'' _ hs''
            have h'' : st.session = some s'' := hs''
            rw [hs] at h''
            cases h''
            omega
      · exact ⟨h1, fun hq => h2 hq, fun s' hq hs' => h3 s' hq hs'⟩
  | msgChunk idx bytes =>
    simp only [portStep, handleAudioChunk]
    split
    · exact ⟨h1, h2, h3⟩
    · rename_i s hs
      split
      · rename_i hcond
        obtain ⟨hrt, hport⟩ := hcond
        have hrt' : s.received + 1 = s.total := by
          simpa [receiveChunk] using hrt
        have h0 : st.uploadsForSession = 0 := by
          rcases Nat.lt_or_ge st.uploadsForSession 1 with hlt | hge
          · omega
          · have := h3 s (by omega) hs
            omega
        simp only [processPortUpload]
        rw [if_neg (not_ne_iff.mpr hrt)]
        refine ⟨by simp [h0], fun _ => Or.inl (by simp), ?_⟩
        intro s' _ hs'
        have h' : some (receiveChunk s idx bytes) = some s' := hs'
        cases h'
        simp [receiveChunk]
        omega
      · refine ⟨h1, fun hq => ?_, fun s' hq hs' => ?_⟩
        · rcases h2 hq with hne | hnone
          · exact Or.inl hne
          · rw [hs] at hnone; cases hnone
        · have h' : some (receiveChunk s idx bytes) = some s' := hs'
          cases h'
          have := h3 s hq hs
          simp [receiveChunk]
          omega

theorem portInv_run (es : List PortEvent) : PortInv (portRun es) := by
  rw [portRun]
  induction es using List.reverseRecOn with
  | nil => exact portInv_init
  | append_singleton es e ih =>
    rw [List.foldl_append]
    exact portInv_step _ e ih

/-- C3: the assembled payload of a chunk-transfer session is handed to upload
processing at most once — in every reachable state of the port machinery the
ghost hand-off counter for the current session is at most 1 — and the first
completion trigger for a fully received session with a free guard does hand
it off (the counter becomes exactly 1), whether the trigger is
`transfer_complete`, the disconnect fallback, or the final chunk arriving
with the port gone. -/
theorem c3_upload_handoff_once (es : List PortEvent) :
    (portRun es).uploadsForSession ≤ 1 ∧
    (∀ s, (portRun es).session = some s → s.received = s.total →
      (portRun es).uploadInProgressId = none →
      (portStep (portRun es) PortEvent.msgTransferComplete).uploadsForSession = 1 ∧
      (0 < s.chunks.length →
        (portStep (portRun es) PortEvent.disconnect).uploadsForSession = 1)) := by
  obtain ⟨h1, h2, h3⟩ := portInv_run es
  refine ⟨h1, ?_⟩
  intro s hs hrt hid
  have h0 : (portRun es).uploadsForSession = 0 := by
    rcases Nat.lt_or_ge (portRun es).uploadsForSession 1 with hlt | hge
    · omega
    · rcases h2 (by omega) with hne | hnone
      · exact absurd hid hne
      · rw [hs] at hnone; cases hnone
  constructor
  · simp only [portStep, handleTransferComplete, hid, if_pos]
    simp only [processPortUpload, hs]
    simp [hrt, h0]
  · intro hlen
    simp only [portStep, onPortDisconnect]
    simp only [hs]
    rw [if_pos ⟨by omega, hrt, by simpa using hid⟩]
    simp only [processPortUpload]
    simp [hrt, h0]

/-- C3 witness: a 1-chunk session fully received over a live port with a free
guard; the `transfer_complete` trigger hands the payload off exactly once. -/
theorem c3_upload_handoff_once_witness :
    (portStep (portRun [PortEvent.connect, PortEvent.msgInit 1,
      PortEvent.msgChunk 0 [7]]) PortEvent.msgTransferComplete).uploadsForSession = 1 :=
  ((c3_upload_handoff_once [PortEvent.connect, PortEvent.msgInit 1,
      PortEvent.msgChunk 0 [7]]).2 ⟨1, 1, [some [7]]⟩ (by decide) (by decide) (by decide)).1

/-! ### START_RECORDING deduplication (background script message handler)

The handler keeps `currentRecordingTask`; a START_RECORDING request arriving
while it is non-null attaches `.then`/`.catch` responders to the pending
promise instead of invoking `handleStartRecording` again, so every duplicate
caller resolves to the pending operation's outcome. -/

/-- Outcome a start operation settles with: the response sent by the
`.then` branch (`status: started`) or the `.catch` branch (the error). -/
inductive StartOutcome where
  | started
  | errored (msg : List Char)
deriving Repr, DecidableEq

/-- Events at the message handler: a START_RECORDING request (tagged with a
request index) or the settlement of the pending `handleStartRecording`
promise chain. -/
inductive StartEvent where
  | startRequest (reqIdx : Nat)
  | taskSettle (o : StartOutcome)
deriving Repr, DecidableEq

/-- State of the START_RECORDING handler.  `initiations` is a ghost counter
of `handleStartRecording()` invocations and `settled` of completed ones;
`waiters` are the requests whose `sendResponse` is attached to the pending
task (the initiating request and every duplicate); `responses` records
`(reqIdx, taskId, outcome)` for each response actually sent. -/
structure StartState where
  currentRecordingTask : Option Nat
  nextTaskId : Nat
  initiations : Nat
  settled : Nat
  waiters : List Nat
  responses : List (Nat × Nat × StartOutcome)
deriving Repr, DecidableEq

def initStartState : StartState := ⟨none, 0, 0, 0, [], []⟩

/-- The START_RECORDING branch of the `onMessage` listener, plus settlement
of the promise chain assigned to `currentRecordingTask`: a request with a
pending task only attaches a responder; a request with no pending task
invokes `handleStartRecording` and stores the chained promise; settlement
responds to the initiator and every attached duplicate with the same
outcome and clears `currentRecordingTask`. -/
def startStep (st : StartState) : StartEvent → StartState
  | .startRequest r =>
    match st.currentRecordingTask with
    | some _ => { st with waiters := st.waiters ++ [r] }
    | none =>
      { st with currentRecordingTask := some st.nextTaskId,
                nextTaskId := st.nextTaskId + 1,
                initiations := st.initiations + 1,
                waiters := [r] }
  | .taskSettle o =>
    match st.currentRecordingTask with
    | some t =>
      { st with currentRecordingTask := none,
                settled := st.settled + 1,
                waiters := [],
                responses := st.responses ++ st.waiters.map (fun r => (r, t, o)) }
    | none => st

def startRun (es : List StartEvent) : StartState :=
  es.foldl startStep initStartState

/-- Invariant: responses for the same task all carry the same outcome; the
pending task (if any) has not responded yet and its id is fresh; the number
of start sequences in flight is `initiations - settled` and is 1 exactly
when a task is pending. -/
def StartInv (st : StartState) : Prop :=
  (∀ p ∈ st.responses, ∀ q ∈ st.responses, p.2.1 = q.2.1 → p.2.2 = q.2.2) ∧
  (∀ p ∈ st.responses, p.2.1 < st.nextTaskId) ∧
  (∀ t, st.currentRecordingTask = some t →
    t < st.nextTaskId ∧ ∀ p ∈ st.responses, p.2.1 ≠ t) ∧
  (st.initiations = st.settled + (if st.currentRecordingTask.isSome then 1 else 0))

theorem startInv_init : StartInv initStartState := by
  refine ⟨?_, ?_, ?_, ?_⟩ <;> simp [initStartState]

theorem startInv_step (st : StartState) (e : StartEvent) (h : StartInv st) :
    StartInv (startStep st e) := by
  obtain ⟨h1, h2, h3, h4⟩ := h
  cases e with
  | startRequest r =>
    simp only [startStep]
    split
    · rename_i t ht
      refine ⟨h1, h2, fun t' ht' => h3 t' ht', ?_⟩
      simpa [ht] using h4
    · rename_i ht
      have hnone : st.currentRecordingTask = none := ht
      refine ⟨h1, fun p hp => Nat.lt_succ_of_lt (h2 p hp), ?_, ?_⟩
      · intro t' ht'
        have h' : some st.nextTaskId = some t' := ht'
        cases h'
        exact ⟨Nat.lt_succ_self _, fun p hp => Nat.ne_of_lt (h2 p hp)⟩
      · simpa [hnone] using h4
  | taskSettle o =>
    simp only [startStep]
    split
    · rename_i t ht
      obtain ⟨htlt, htfresh⟩ := h3 t ht
      refine ⟨?_, ?_, ?_, ?_⟩
      · intro p hp q hq hpq
        simp only [List.mem_append, List.mem_map] at hp hq
        rcases hp with hp | ⟨rp, hrp, hep⟩ <;> rcases hq with hq | ⟨rq, hrq, heq⟩
        · exact h1 p hp q hq hpq
        · exfalso
          rw [← heq] at hpq
          exact htfresh p hp (by simpa using hpq)
        · exfalso
          rw [← hep] at hpq
          exact htfresh q hq (by simpa using hpq.symm)
        · rw [← hep, ← heq]
      · intro p hp
        simp only [List.mem_append, List.mem_map] at hp
        rcases hp with hp | ⟨rp, hrp, hep⟩
        · exact h2 p hp
        · rw [← hep]; exact htlt
      · intro t' ht'
        have h' : (none : Option Nat) = some t' := ht'
        cases h'
      · rw [ht] at h4
        simp at h4
        simp [h4]
    · exact ⟨h1, h2, h3, h4⟩

theorem startInv_run (es : List StartEvent) : StartInv (startRun es) := by
  rw [startRun]
  induction es using List.reverseRecOn with
  | nil => exact startInv_init
  | append_singleton es e ih =>
    rw [List.foldl_append]
    exact startInv_step _ e ih

/-- C4: while a start operation is pending (`currentRecordingTask` non-null)
a further START_RECORDING request attaches to the pending task and invokes
no second `handleStartRecording`; any two responses bound to the same start
operation carry the same outcome; and the number of start sequences in
flight (`initiations - settled`) never exceeds one, so at most one
offscreen-document creation sequence runs at any time. -/
theorem c4_start_dedup (es : List StartEvent) :
    (startRun es).initiations ≤ (startRun es).settled + 1 ∧
    (∀ r, (startRun es).currentRecordingTask ≠ none →
      (startStep (startRun es) (StartEvent.startRequest r)).initiations =
        (startRun es).initiations ∧
      (startStep (startRun es) (StartEvent.startRequest r)).currentRecordingTask =
        (startRun es).currentRecordingTask) ∧
    (∀ p ∈ (startRun es).responses, ∀ q ∈ (startRun es).responses,
      p.2.1 = q.2.1 → p.2.2 = q.2.2) := by
  obtain ⟨h1, h2, h3, h4⟩ := startInv_run es
  refine ⟨by split at h4 <;> omega, ?_, h1⟩
  intro r hr
  cases hc : (startRun es).currentRecordingTask with
  | none => exact absurd hc hr
  | some t =>
    constructor <;> simp [startStep, hc]

/-- C4 witness: two START_RECORDING requests before the task settles; the
second one attaches to the pending task without a new initiation, and the
two responses sent at settlement carry the same outcome. -/
theorem c4_start_dedup_witness :
    (startStep (startRun [StartEvent.startRequest 0])
        (StartEvent.startRequest 1)).initiations =
      (startRun [StartEvent.startRequest 0]).initiations ∧
    ((0, 0, StartOutcome.started) : Nat × Nat × StartOutcome).2.2 =
      ((1, 0, StartOutcome.started) : Nat × Nat × StartOutcome).2.2 := by
  have h := c4_start_dedup [StartEvent.startRequest 0]
  have h2 := (h.2.1 1 (by decide)).1
  have hcons := c4_start_dedup [StartEvent.startRequest 0, StartEvent.startRequest 1,
    StartEvent.taskSettle StartOutcome.started]
  exact ⟨h2, hcons.2.2 (0, 0, StartOutcome.started) (by decide)
    (1, 0, StartOutcome.started) (by decide) (by decide)⟩

/-! ### Upload retry loop (`uploadFromPortSession`, CONFIG.UPLOAD)

`while (retryCount < MAX_RETRIES && !uploadSuccess)`: each failed attempt
increments `retryCount`; after the last failure a RECORDING_WARNING is sent,
otherwise the loop waits `Math.pow(2, retryCount) * RETRY_DELAY_BASE`
milliseconds before the next attempt. -/

def MAX_RETRIES : Nat := 3

def RETRY_DELAY_BASE : Nat := 2000

/-- Observable outcome of the retry loop: how many `uploadToR2` attempts were
made, the total backoff delay awaited, whether the upload succeeded, and
whether the terminal RECORDING_WARNING was sent. -/
structure UploadRunResult where
  attempts : Nat
  totalDelay : Nat
  uploadSuccess : Bool
  warned : Bool
deriving Repr, DecidableEq

/-- The retry loop of `uploadFromPortSession`; `attemptFails k` tells whether
the k-th (1-based) `uploadToR2` call throws. -/
def uploadRetryLoop (attemptFails : Nat → Bool) : Nat → Nat → UploadRunResult →
    UploadRunResult
  | 0, _, acc => acc
  | fuel + 1, retryCount, acc =>
    if retryCount < MAX_RETRIES ∧ acc.uploadSuccess = false then
      if attemptFails (retryCount + 1) then
        if retryCount + 1 ≥ MAX_RETRIES then
          uploadRetryLoop attemptFails fuel (retryCount + 1)
            { acc with attempts := acc.attempts + 1, warned := true }
        else
          uploadRetryLoop attemptFails fuel (retryCount + 1)
            { acc with attempts := acc.attempts + 1,
                       totalDelay := acc.totalDelay +
                         2 ^ (retryCount + 1) * RETRY_DELAY_BASE }
      else
        uploadRetryLoop attemptFails fuel retryCount
          { acc with attempts := acc.attempts + 1, uploadSuccess := true }
    else acc

/-- `uploadFromPortSession`'s upload phase: run the loop from
`retryCount = 0`, `uploadSuccess = false`. -/
def uploadFromPortSession (attemptFails : Nat → Bool) : UploadRunResult :=
  uploadRetryLoop attemptFails MAX_RETRIES 0 ⟨0, 0, false, false⟩

/-- C5: the upload makes at most MAX_RETRIES (3) attempts, waiting
`2^k * RETRY_DELAY_BASE` before retry k, so two failures followed by success
are reported as a success with cumulative delay `base*2 + base*4`; three
failures yield the terminal warning with no success; and the upload guard
(`uploadInProgressId`) is cleared when the upload settles, on success and on
failure alike. -/
theorem c5_upload_retry (attemptFails : Nat → Bool) :
    (uploadFromPortSession attemptFails).attempts ≤ MAX_RETRIES ∧
    (uploadFromPortSession attemptFails).totalDelay =
      (if attemptFails 1 then 2 * RETRY_DELAY_BASE else 0) +
      (if attemptFails 1 ∧ attemptFails 2 then 4 * RETRY_DELAY_BASE else 0) ∧
    ((attemptFails 1 = true ∧ attemptFails 2 = true ∧ attemptFails 3 = false) →
      (uploadFromPortSession attemptFails).uploadSuccess = true ∧
      (uploadFromPortSession attemptFails).warned = false ∧
      (uploadFromPortSession attemptFails).totalDelay =
        RETRY_DELAY_BASE * 2 + RETRY_DELAY_BASE * 4) ∧
    ((attemptFails 1 = true ∧ attemptFails 2 = true ∧ attemptFails 3 = true) →
      (uploadFromPortSession attemptFails).uploadSuccess = false ∧
      (uploadFromPortSession attemptFails).warned = true ∧
      (uploadFromPortSession attemptFails).attempts = MAX_RETRIES) ∧
    (∀ st : PortState, 0 < st.pendingUploads →
      (handleUploadFinish st).uploadInProgressId = none) := by
  have hguard : ∀ st : PortState, 0 < st.pendingUploads →
      (handleUploadFinish st).uploadInProgressId = none := by
    intro st hp
    simp [handleUploadFinish, hp]
  cases hf1 : attemptFails 1 <;> cases hf2 : attemptFails 2 <;> cases hf3 : attemptFails 3 <;>
    refine ⟨?_, ?_, ?_, ?_, hguard⟩ <;>
    simp [uploadFromPortSession, uploadRetryLoop, MAX_RETRIES, RETRY_DELAY_BASE, hf1, hf2, hf3]

/-- C5 witness: the fail-fail-succeed schedule reports success with delay
`2000*2 + 2000*4 = 12000` and at most three attempts, and the finished
upload clears the guard. -/
theorem c5_upload_retry_witness :
    (uploadFromPortSession (fun k => k < 3)).uploadSuccess = true ∧
    (uploadFromPortSession (fun k => k < 3)).totalDelay =
      RETRY_DELAY_BASE * 2 + RETRY_DELAY_BASE * 4 ∧
    (handleUploadFinish ⟨false, none, some 0, 1, 1, 1⟩).uploadInProgressId = none := by
  have h := c5_upload_retry (fun k => decide (k < 3))
  refine ⟨(h.2.2.1 (by decide)).1, (h.2.2.1 (by decide)).2.2, ?_⟩
  exact h.2.2.2.2 ⟨false, none, some 0, 1, 1, 1⟩ (by decide)

/-! ### Stop handler (`handleStopRecording`)

State touched by `handleStopRecording`: the in-memory `isRecording` flag and
`sessionId`, and the durable `chrome.storage.local` record (recording flag,
stopping flag, tab id, start time, last session id), plus whether an
offscreen document currently exists. -/

structure StopState where
  isRecording : Bool
  storIsRecording : Bool
  storIsStoppingRecording : Bool
  storRecordingTabId : Option Nat
  storRecordingStartTime : Option Nat
  sessionId : Option Nat
  lastSessionId : Option Nat
  documentExists : Bool
deriving Repr, DecidableEq

/-- `handleStopRecording`: records the stopping flag; if no offscreen
document exists it clears every recording flag and returns success straight
away; otherwise it messages the offscreen document, clears the flags, saves
the session id for pending uploads, and closes the document (all paths
return success; the delay/large-upload branches differ only in waits). -/
def handleStopRecording (st : StopState) : Bool × StopState :=
  if st.documentExists = false then
    (true, { st with isRecording := false,
                     storIsRecording := false,
                     storIsStoppingRecording := false,
                     storRecordingTabId := none,
                     storRecordingStartTime := none })
  else
    (true, { st with isRecording := false,
                     storIsRecording := false,
                     storIsStoppingRecording := false,
                     storRecordingTabId := none,
                     storRecordingStartTime := none,
                     lastSessionId := st.sessionId,
                     sessionId := none,
                     documentExists := false })

/-- The not-recording state: no offscreen document, in-memory and durable
flags all cleared. -/
def notRecording (st : StopState) : Prop :=
  st.documentExists = false ∧ st.isRecording = false ∧
  st.storIsRecording = false ∧ st.storIsStoppingRecording = false ∧
  st.storRecordingTabId = none ∧ st.storRecordingStartTime = none

/-- Iterated stop calls (state component only). -/
def stopIter : Nat → StopState → StopState
  | 0, st => st
  | n + 1, st => stopIter n (handleStopRecording st).2

/-- C6: calling stop in the not-recording state returns success and leaves
the state exactly unchanged — no side effects — so any number of repeated
stop calls from that state also return success and leave it at the same
not-recording state. -/
theorem c6_stop_idempotent (st : StopState) (h : notRecording st) :
    handleStopRecording st = (true, st) ∧
    (∀ n, stopIter n st = st) ∧
    notRecording (handleStopRecording st).2 := by
  obtain ⟨hdoc, h1, h2, h3, h4, h5⟩ := h
  have hstep : handleStopRecording st = (true, st) := by
    cases st
    simp_all [handleStopRecording]
  refine ⟨hstep, ?_, ?_⟩
  · intro n
    induction n with
    | zero => rfl
    | succ n ih => simpa [stopIter, hstep] using ih
  · rw [hstep]
    exact ⟨hdoc, h1, h2, h3, h4, h5⟩

/-- C6 witness: the idempotence theorem at the canonical not-recording
state. -/
theorem c6_stop_idempotent_witness :
    handleStopRecording ⟨false, false, false, none, none, none, none, false⟩ =
      (true, ⟨false, false, false, none, none, none, none, false⟩) :=
  (c6_stop_idempotent ⟨false, false, false, none, none, none, none, false⟩
    (by exact ⟨rfl, rfl, rfl, rfl, rfl, rfl⟩)).1

/-! ### Offscreen document supervision (`ensureOffscreenDocument`)

The function loops `for attempt = 1..3`.  Each iteration closes any existing
document and waits 1000 ms, then calls `chrome.offscreen.createDocument`,
waits the 3000 ms load delay and races an OFFSCREEN_DOCUMENT_READY listener
(5000 ms timeout) against a PING_OFFSCREEN round trip (3000 ms timeout).  A
creation error mentioning "Only a single offscreen document" forces a
`closeDocument` plus a 2000 ms wait and retries; any other error is
rethrown on the final attempt (wrapped by the outer catch) and otherwise
waits 2000 ms and retries.  Falling out of the loop returns `false`. -/

def SETTLE_DELAY_MS : Nat := 1000
def LOAD_DELAY_MS : Nat := 3000
def READY_TIMEOUT_MS : Nat := 5000
def PING_TIMEOUT_MS : Nat := 3000
def CONFLICT_RETRY_DELAY_MS : Nat := 2000

/-- What one creation attempt can observe: the readiness race resolving
true; the race timing out; `createDocument` throwing the single-document
conflict; or `createDocument` (or a later step) throwing some other
error. -/
inductive OffscreenAttempt where
  | ready
  | notReady
  | errSingleton
  | errOther (msg : List Char)
deriving Repr, DecidableEq

/-- Observable summary of one `ensureOffscreenDocument` run: number of
`createDocument` calls, number of document closes (the per-attempt cleanup
close and the forced close on a singleton conflict), and the outcome —
`Except.ok true/false` or the wrapped thrown error. -/
structure EnsureResult where
  creates : Nat
  closes : Nat
  result : Except (List Char) Bool
deriving Repr

/-- The `for attempt = 1..3` loop of `ensureOffscreenDocument`. -/
def ensureLoop : List OffscreenAttempt → Nat → Nat → Nat → EnsureResult
  | [], _, creates, closes => ⟨creates, closes, Except.ok false⟩
  | o :: rest, attempt, creates, closes =>
    match o with
    | .ready => ⟨creates + 1, closes + 1, Except.ok true⟩
    | .notReady => ensureLoop rest (attempt + 1) (creates + 1) (closes + 1)
    | .errSingleton => ensureLoop rest (attempt + 1) (creates + 1) (closes + 2)
    | .errOther msg =>
      if attempt = 3 then
        ⟨creates + 1, closes + 1,
          Except.error ("Could not create offscreen document: ".toList ++ msg)⟩
      else ensureLoop rest (attempt + 1) (creates + 1) (closes + 1)

/-- `ensureOffscreenDocument`: three attempts, starting with attempt 1. -/
def ensureOffscreenDocument (o1 o2 o3 : OffscreenAttempt) : EnsureResult :=
  ensureLoop [o1, o2, o3] 1 0 0

/-- C7: `ensureOffscreenDocument` makes at most 3 creation attempts, each
preceded by a forced close (closes ≥ creates); it reports the host ready
only if some attempt's readiness race resolved; a single-offscreen-document
conflict is always retried (it can never produce the thrown error — errors
escalate only from a non-conflict failure on the final attempt); and when
every attempt fails the outcome is `ok false` or a thrown error, never
ready. -/
theorem c7_ensure_offscreen (o1 o2 o3 : OffscreenAttempt) :
    (ensureOffscreenDocument o1 o2 o3).creates ≤ 3 ∧
    (ensureOffscreenDocument o1 o2 o3).creates ≤ (ensureOffscreenDocument o1 o2 o3).closes ∧
    ((ensureOffscreenDocument o1 o2 o3).result = Except.ok true →
      o1 = OffscreenAttempt.ready ∨ o2 = OffscreenAttempt.ready ∨
        o3 = OffscreenAttempt.ready) ∧
    (∀ e, (ensureOffscreenDocument o1 o2 o3).result = Except.error e →
      ∃ msg, o3 = OffscreenAttempt.errOther msg ∧
        e = "Could not create offscreen document: ".toList ++ msg) ∧
    ((o1 ≠ OffscreenAttempt.ready ∧ o2 ≠ OffscreenAttempt.ready ∧
        o3 ≠ OffscreenAttempt.ready) →
      (ensureOffscreenDocument o1 o2 o3).result ≠ Except.ok true) := by
  cases o1 <;> cases o2 <;> cases o3 <;>
    simp [ensureOffscreenDocument, ensureLoop]

/-- C7 witness: two conflicting/failed attempts followed by a ready race
report success with exactly 3 creations, and three failed races report
`ok false`, not ready. -/
theorem c7_ensure_offscreen_witness :
    (ensureOffscreenDocument OffscreenAttempt.errSingleton OffscreenAttempt.notReady
        OffscreenAttempt.ready).result = Except.ok true ∧
    (ensureOffscreenDocument OffscreenAttempt.notReady OffscreenAttempt.notReady
        OffscreenAttempt.notReady).result ≠ Except.ok true := by
  constructor
  · rfl
  · exact (c7_ensure_offscreen OffscreenAttempt.notReady OffscreenAttempt.notReady
      OffscreenAttempt.notReady).2.2.2.2 (by decide)

/-! ### Artifact key derivation (storage worker)

`handleTranscribe`, `handleGetTranscription` and `handleSummarize` all
compute `key.replace(/\.(wav|mp3|webm)$/, '-transcription.json')`, and
`handleSummarize` computes
`finalTranscriptionKey.replace('-transcription.json', '-summary.json')`
(a string-pattern `replace`, i.e. first occurrence). -/

/-- `leadsWith p s`: `p` is an initial run of `s`. -/
def leadsWith : List Char → List Char → Bool
  | [], _ => true
  | _ :: _, [] => false
  | p :: ps, c :: cs => p == c && leadsWith ps cs

/-- End-anchored match of `suf` against `s` (the `$`-anchored regex test). -/
def endsWithL (s suf : List Char) : Bool :=
  decide (suf.length ≤ s.length) && decide (s.drop (s.length - suf.length) = suf)

/-- Remove a matched end-anchored suffix. -/
def stripExt (s suf : List Char) : List Char :=
  s.take (s.length - suf.length)

def extWav : List Char := ".wav".toList
def extMp3 : List Char := ".mp3".toList
def extWebm : List Char := ".webm".toList
def transcriptionMarker : List Char := "-transcription.json".toList
def summaryMarker : List Char := "-summary.json".toList

/-- `key.replace(/\.(wav|mp3|webm)$/, '-transcription.json')`: if the key
ends in one of the three audio extensions, that end-anchored extension is
replaced; otherwise the key is unchanged.  (At most one alternative can
match since the extensions end in distinct characters.) -/
def replaceAudioExt (s : List Char) : List Char :=
  if endsWithL s extWav then stripExt s extWav ++ transcriptionMarker
  else if endsWithL s extMp3 then stripExt s extMp3 ++ transcriptionMarker
  else if endsWithL s extWebm then stripExt s extWebm ++ transcriptionMarker
  else s

/-- `handleTranscribe`: `transcriptionKey = audioKey.replace(...)`. -/
def transcribeTranscriptionKey (audioKey : List Char) : List Char :=
  replaceAudioExt audioKey

/-- `handleGetTranscription`: `transcriptionKey = key.replace(...)`. -/
def getTranscriptionDerivedKey (key : List Char) : List Char :=
  replaceAudioExt key

/-- `handleSummarize`: `finalTranscriptionKey = audioKey.replace(...)` when
only an audio key is supplied. -/
def summarizeDerivedTranscriptionKey (audioKey : List Char) : List Char :=
  replaceAudioExt audioKey

/-- JavaScript `String.replace` with a string pattern: replace the first
occurrence only. -/
def replaceFirstL (pat rep : List Char) : List Char → List Char
  | [] => if leadsWith pat [] then rep ++ ([] : List Char) else []
  | c :: rest =>
    if leadsWith pat (c :: rest) then rep ++ (c :: rest).drop pat.length
    else c :: replaceFirstL pat rep rest

/-- `handleSummarize`: `summaryKey =
finalTranscriptionKey.replace('-transcription.json', '-summary.json')`. -/
def summaryKeyOf (transcriptionKey : List Char) : List Char :=
  replaceFirstL transcriptionMarker summaryMarker transcriptionKey

/-- Does `pat` occur in `s ++ pat` at a position strictly inside `s`? -/
def properOccur (pat : List Char) : List Char → Bool
  | [] => false
  | c :: rest => leadsWith pat (c :: (rest ++ pat)) || properOccur pat rest

theorem leadsWith_refl (p : List Char) : leadsWith p p = true := by
  induction p with
  | nil => rfl
  | cons c cs ih => simp [leadsWith, ih]

theorem leadsWith_append_self (p t : List Char) : leadsWith p (p ++ t) = true := by
  induction p with
  | nil => rfl
  | cons c cs ih => simp [leadsWith, ih]

theorem replaceFirstL_self (pat rep : List Char) :
    replaceFirstL pat rep pat = rep := by
  cases pat with
  | nil => simp [replaceFirstL, leadsWith]
  | cons c cs =>
    rw [replaceFirstL, if_pos (leadsWith_refl (c :: cs))]
    simp

/-- `replace` rewrites the final marker when the marker does not occur
earlier in the string. -/
theorem replaceFirstL_at_end (pat rep stem : List Char)
    (h : properOccur pat stem = false) :
    replaceFirstL pat rep (stem ++ pat) = stem ++ rep := by
  induction stem with
  | nil => simpa using replaceFirstL_self pat rep
  | cons c rest ih =>
    simp only [properOccur, Bool.or_eq_false_iff] at h
    have hlw : leadsWith pat (c :: (rest ++ pat)) = false := h.1
    rw [List.cons_append, replaceFirstL, if_neg (by rw [hlw]; exact Bool.false_ne_true)]
    rw [ih h.2, List.cons_append]

theorem endsWithL_append_self (stem suf : List Char) :
    endsWithL (stem ++ suf) suf = true := by
  have h : (stem ++ suf).length - suf.length = stem.length := by
    rw [List.length_append]; omega
  simp [endsWithL, h, List.drop_left, List.length_append]

/-- End-anchored mismatch: checking `e` against a string ending in `suf`
fails whenever the end of `suf` of `e`'s length differs from `e`. -/
theorem endsWithL_append_ne (stem suf e : List Char) (d : Nat)
    (hd : suf.length = e.length + d) (hne : suf.drop d ≠ e) :
    endsWithL (stem ++ suf) e = false := by
  have h1 : (stem ++ suf).length - e.length = stem.length + d := by
    rw [List.length_append, hd]; omega
  have h2 : (stem ++ suf).drop (stem.length + d) = suf.drop d := List.drop_append d
  rw [endsWithL]
  rw [show (stem ++ suf).drop ((stem ++ suf).length - e.length) = suf.drop d from by
    rw [h1]; exact h2]
  simp [hne]

theorem stripExt_append (stem suf : List Char) : stripExt (stem ++ suf) suf = stem := by
  have h : (stem ++ suf).length - suf.length = stem.length := by
    rw [List.length_append]; omega
  rw [stripExt, h, List.take_left]

theorem replaceAudioExt_wav (stem : List Char) :
    replaceAudioExt (stem ++ extWav) = stem ++ transcriptionMarker := by
  rw [replaceAudioExt, if_pos (endsWithL_append_self stem extWav), stripExt_append]

theorem replaceAudioExt_mp3 (stem : List Char) :
    replaceAudioExt (stem ++ extMp3) = stem ++ transcriptionMarker := by
  have hw : endsWithL (stem ++ extMp3) extWav = false :=
    endsWithL_append_ne stem extMp3 extWav 0 (by decide) (by decide)
  rw [replaceAudioExt, if_neg (by rw [hw]; exact Bool.false_ne_true),
    if_pos (endsWithL_append_self stem extMp3), stripExt_append]

theorem replaceAudioExt_webm (stem : List Char) :
    replaceAudioExt (stem ++ extWebm) = stem ++ transcriptionMarker := by
  have hw : endsWithL (stem ++ extWebm) extWav = false :=
    endsWithL_append_ne stem extWebm extWav 1 (by decide) (by decide)
  have hm : endsWithL (stem ++ extWebm) extMp3 = false :=
    endsWithL_append_ne stem extWebm extMp3 1 (by decide) (by decide)
  rw [replaceAudioExt, if_neg (by rw [hw]; exact Bool.false_ne_true),
    if_neg (by rw [hm]; exact Bool.false_ne_true),
    if_pos (endsWithL_append_self stem extWebm), stripExt_append]

/-- C8: for every audio key ending in .wav, .mp3 or .webm, the transcribe,
get-transcription and summarize handlers all derive the same transcription
key — the key with the extension replaced by `-transcription.json` — and the
summary key is that key with the final `-transcription.json` replaced by
`-summary.json` (the marker must not occur earlier, `replace` rewriting the
first occurrence), so the three artifact keys of one recording agree. -/
theorem c8_key_derivation (stem ext : List Char)
    (hext : ext = extWav ∨ ext = extMp3 ∨ ext = extWebm) :
    transcribeTranscriptionKey (stem ++ ext) = stem ++ transcriptionMarker ∧
    getTranscriptionDerivedKey (stem ++ ext) = stem ++ transcriptionMarker ∧
    summarizeDerivedTranscriptionKey (stem ++ ext) = stem ++ transcriptionMarker ∧
    (properOccur transcriptionMarker stem = false →
      summaryKeyOf (transcribeTranscriptionKey (stem ++ ext)) =
        stem ++ summaryMarker) := by
  have hkey : replaceAudioExt (stem ++ ext) = stem ++ transcriptionMarker := by
    rcases hext with rfl | rfl | rfl
    · exact replaceAudioExt_wav stem
    · exact replaceAudioExt_mp3 stem
    · exact replaceAudioExt_webm stem
  refine ⟨hkey, hkey, hkey, ?_⟩
  intro h
  rw [transcribeTranscriptionKey, hkey, summaryKeyOf]
  exact replaceFirstL_at_end transcriptionMarker summaryMarker stem h

/-- C8 witness: the three derivations agree on a concrete recording key and
produce the matching summary key. -/
theorem c8_key_derivation_witness :
    transcribeTranscriptionKey ("rec/u-s/audio".toList ++ extWebm) =
      "rec/u-s/audio".toList ++ transcriptionMarker ∧
    summaryKeyOf (transcribeTranscriptionKey ("rec/u-s/audio".toList ++ extWebm)) =
      "rec/u-s/audio".toList ++ summaryMarker := by
  have h := c8_key_derivation ("rec/u-s/audio".toList) extWebm (Or.inr (Or.inr rfl))
  exact ⟨h.1, h.2.2.2 (by decide)⟩

/-! ### EXPORT_TO_ONENOTE idempotency guard (background script)

`oneNoteExportInProgress` and `processedRequestIds` are declared with `let`
INSIDE the `onMessage` listener callback, so each delivered message gets a
fresh `false` flag and a fresh empty set: nothing of the guard survives from
one message to the next. -/

/-- An EXPORT_TO_ONENOTE request: its idempotency key and whether token and
content are present. -/
structure ExportRequest where
  requestId : Option Nat
  hasAccessToken : Bool
  hasContent : Bool
deriving Repr, DecidableEq

/-- The guard variables declared in the listener body. -/
structure ExportMemory where
  oneNoteExportInProgress : Bool
  processedRequestIds : List Nat
deriving Repr, DecidableEq

/-- The `let oneNoteExportInProgress = false; let processedRequestIds = new
Set()` that run anew on every message delivery. -/
def freshExportMemory : ExportMemory := ⟨false, []⟩

/-- Observables of one EXPORT_TO_ONENOTE handling: whether it was rejected
as a replayed request id, rejected as concurrently in progress, and whether
the handler reached the Microsoft Graph fetch (the upstream call). -/
structure ExportResponse where
  rejectedAsDuplicate : Bool
  rejectedAsInProgress : Bool
  upstreamCalled : Bool
deriving Repr, DecidableEq

/-- Keep only the last 20 processed request ids. -/
def trim20 (ids : List Nat) : List Nat :=
  if ids.length > 20 then ids.drop (ids.length - 20) else ids

/-- The body of the export after the guards: the token/content validation
(which resets the flag on early error) and otherwise the Graph API fetch
chain with the flag held. -/
def exportBody (mem : ExportMemory) (req : ExportRequest) :
    ExportResponse × ExportMemory :=
  if req.hasAccessToken = false then
    (⟨false, false, false⟩, { mem with oneNoteExportInProgress := false })
  else if req.hasContent = false then
    (⟨false, false, false⟩, { mem with oneNoteExportInProgress := false })
  else
    (⟨false, false, true⟩, { mem with oneNoteExportInProgress := true })

/-- The EXPORT_TO_ONENOTE branch: duplicate-id check, in-progress check,
record the id (trimmed to 20), set the flag, then token/content validation
before the Graph API fetch. -/
def exportStep (mem : ExportMemory) (req : ExportRequest) :
    ExportResponse × ExportMemory :=
  match req.requestId with
  | some rid =>
    if rid ∈ mem.processedRequestIds then
      (⟨true, false, false⟩, mem)
    else if mem.oneNoteExportInProgress then
      (⟨false, true, false⟩, mem)
    else
      exportBody { mem with
        processedRequestIds := trim20 (mem.processedRequestIds ++ [rid]) } req
  | none =>
    if mem.oneNoteExportInProgress then
      (⟨false, true, false⟩, mem)
    else
      exportBody mem req

/-- Successive messages through the listener: each one re-runs the `let`
declarations, so each `exportStep` starts from `freshExportMemory`. -/
def runExports (reqs : List ExportRequest) : List ExportResponse :=
  reqs.map (fun r => (exportStep freshExportMemory r).1)

/-- C2 (refuted on the code): because the guard variables are re-created on
every message, no EXPORT_TO_ONENOTE request is ever rejected as a duplicate
or as in-progress, and replaying the same requestId after the first request
completed reaches the upstream Microsoft Graph call a second time. -/
theorem c2_replay_not_rejected :
    (∀ req : ExportRequest,
      (exportStep freshExportMemory req).1.rejectedAsDuplicate = false ∧
      (exportStep freshExportMemory req).1.rejectedAsInProgress = false) ∧
    runExports [⟨some 7, true, true⟩, ⟨some 7, true, true⟩] =
      [⟨false, false, true⟩, ⟨false, false, true⟩] := by
  constructor
  · intro req
    rcases req with ⟨rid, tok, cont⟩
    rcases rid with _ | rid <;> cases tok <;> cases cont <;>
      simp [exportStep, exportBody, freshExportMemory]
  · rfl

/-! ### Storage worker authentication (r2-upload, r2-list, r2-get,
transcribe, summarize)

Every handler begins with
`if (!authHeader || !authHeader.startsWith('Bearer ')) return 401` and never
validates the token beyond that; all other exits use 200/400/404/500. -/

def bearerTag : List Char := "Bearer ".toList

/-- The check `authHeader && authHeader.startsWith('Bearer ')`. -/
def authPasses : Option (List Char) → Bool
  | none => false
  | some h => leadsWith bearerTag h

/-- Environment of `handleR2Upload` beyond the auth header: the `key` query
parameter, the body size, and whether the R2 put throws. -/
structure R2UploadEnv where
  keyParam : Option (List Char)
  blobSize : Nat
  putThrows : Bool

/-- `handleR2Upload` response status. -/
def handleR2Upload (auth : Option (List Char)) (env : R2UploadEnv) : Nat :=
  if authPasses auth = false then 401
  else match env.keyParam with
    | none => 400
    | some k =>
      if k = [] then 400
      else if env.blobSize = 0 then 400
      else if env.putThrows then 500
      else 200

structure R2ListEnv where
  bodyThrows : Bool
  listPfx : Option (List Char)
  noSummaries : Bool
  getThrows : Bool

/-- `handleR2List` response status. -/
def handleR2List (auth : Option (List Char)) (env : R2ListEnv) : Nat :=
  if authPasses auth = false then 401
  else if env.bodyThrows then 500
  else match env.listPfx with
    | none => 400
    | some p =>
      if p = [] then 400
      else if env.noSummaries then 404
      else if env.getThrows then 500
      else 200

structure R2GetEnv where
  bodyThrows : Bool
  keyVal : Option (List Char)
  getThrows : Bool
  found : Bool

/-- `handleR2Get` response status. -/
def handleR2Get (auth : Option (List Char)) (env : R2GetEnv) : Nat :=
  if authPasses auth = false then 401
  else if env.bodyThrows then 500
  else match env.keyVal with
    | none => 400
    | some k =>
      if k = [] then 400
      else if env.getThrows then 500
      else if env.found = false then 404
      else 200

structure TranscribeEnv where
  formThrows : Bool
  audioGiven : Bool
  sizeBytes : Nat
  aiThrows : Bool
  keyGiven : Bool
  putThrows : Bool

/-- `handleTranscribe` response status (the too-large throw and every other
throw land in the catch as 500). -/
def handleTranscribeStatus (auth : Option (List Char)) (env : TranscribeEnv) : Nat :=
  if authPasses auth = false then 401
  else if env.formThrows then 500
  else if env.audioGiven = false then 400
  else if 25 * 1024 * 1024 < env.sizeBytes then 500
  else if env.aiThrows then 500
  else if env.keyGiven ∧ env.putThrows then 500
  else 200

structure SummarizeEnv where
  bodyThrows : Bool
  tKeyGiven : Bool
  aKeyGiven : Bool
  tFound : Bool
  textBlank : Bool
  aiThrows : Bool
  putThrows : Bool

/-- `handleSummarize` response status. -/
def handleSummarizeStatus (auth : Option (List Char)) (env : SummarizeEnv) : Nat :=
  if authPasses auth = false then 401
  else if env.bodyThrows then 500
  else if env.tKeyGiven = false ∧ env.aKeyGiven = false then 400
  else if env.tFound = false then 404
  else if env.textBlank then 400
  else if env.aiThrows then 500
  else if env.putThrows then 500
  else 200

theorem r2Upload_auth (auth : Option (List Char)) (env : R2UploadEnv) :
    handleR2Upload auth env = 401 ↔ authPasses auth = false := by
  rcases env with ⟨kp, bs, pt⟩
  by_cases hA : authPasses auth = false
  · simp [handleR2Upload, hA]
  · rw [handleR2Upload, if_neg hA]
    rcases kp with _ | k
    · simp [hA]
    · split_ifs <;> simp [hA] <;> try (split_ifs <;> simp)

theorem r2List_auth (auth : Option (List Char)) (env : R2ListEnv) :
    handleR2List auth env = 401 ↔ authPasses auth = false := by
  rcases env with ⟨bt, lp, ns, gt⟩
  by_cases hA : authPasses auth = false
  · simp [handleR2List, hA]
  · rw [handleR2List, if_neg hA]
    rcases lp with _ | p <;> split_ifs <;> simp [hA] <;> try (split_ifs <;> simp)

theorem r2Get_auth (auth : Option (List Char)) (env : R2GetEnv) :
    handleR2Get auth env = 401 ↔ authPasses auth = false := by
  rcases env with ⟨bt, kv, gt, fd⟩
  by_cases hA : authPasses auth = false
  · simp [handleR2Get, hA]
  · rw [handleR2Get, if_neg hA]
    rcases kv with _ | k <;> split_ifs <;> simp [hA] <;> try (split_ifs <;> simp)

theorem transcribe_auth (auth : Option (List Char)) (env : TranscribeEnv) :
    handleTranscribeStatus auth env = 401 ↔ authPasses auth = false := by
  by_cases hA : authPasses auth = false
  · simp [handleTranscribeStatus, hA]
  · rw [handleTranscribeStatus, if_neg hA]
    split_ifs <;> simp [hA]

theorem summarize_auth (auth : Option (List Char)) (env : SummarizeEnv) :
    handleSummarizeStatus auth env = 401 ↔ authPasses auth = false := by
  by_cases hA : authPasses auth = false
  · simp [handleSummarizeStatus, hA]
  · rw [handleSummarizeStatus, if_neg hA]
    split_ifs <;> simp [hA]

/-- C9: each storage-worker endpoint answers 401 exactly when the
Authorization header is absent or does not begin with `Bearer `, and any
header of the form `Bearer <anything>` — the token value is never
inspected — passes the check, so no such request is answered 401. -/
theorem c9_auth_401 (auth : Option (List Char)) :
    (∀ env : R2UploadEnv, handleR2Upload auth env = 401 ↔ authPasses auth = false) ∧
    (∀ env : R2ListEnv, handleR2List auth env = 401 ↔ authPasses auth = false) ∧
    (∀ env : R2GetEnv, handleR2Get auth env = 401 ↔ authPasses auth = false) ∧
    (∀ env : TranscribeEnv,
      handleTranscribeStatus auth env = 401 ↔ authPasses auth = false) ∧
    (∀ env : SummarizeEnv,
      handleSummarizeStatus auth env = 401 ↔ authPasses auth = false) ∧
    (∀ t : List Char, authPasses (some (bearerTag ++ t)) = true) :=
  ⟨fun env => r2Upload_auth auth env,
   fun env => r2List_auth auth env,
   fun env => r2Get_auth auth env,
   fun env => transcribe_auth auth env,
   fun env => summarize_auth auth env,
   fun t => leadsWith_append_self bearerTag t⟩

/-! ### `arrayBufferToBase64` (storage worker utility)

The worker builds the binary string in 32 KiB (0x8000) slices,
`binary += String.fromCharCode.apply(null, slice)`, and applies `btoa`
once; the naive single-pass encoding converts the whole buffer to one
binary string and applies `btoa` to it. -/

def B64_SLICE_SIZE : Nat := 32768

def b64Alphabet : List Char :=
  "ABCDEFGHIJKLMNOPQRSTUVWXYZabcdefghijklmnopqrstuvwxyz0123456789+/".toList

def b64Char (n : Nat) : Char := b64Alphabet.getD n 'A'

/-- `btoa` on a binary string given as its char codes (RFC 4648 with
padding). -/
def btoa : List Nat → List Char
  | [] => []
  | [b1] => [b64Char (b1 / 4), b64Char (b1 % 4 * 16), '=', '=']
  | [b1, b2] =>
    [b64Char (b1 / 4), b64Char (b1 % 4 * 16 + b2 / 16), b64Char (b2 % 16 * 4), '=']
  | b1 :: b2 :: b3 :: rest =>
    b64Char (b1 / 4) :: b64Char (b1 % 4 * 16 + b2 / 16) ::
      b64Char (b2 % 16 * 4 + b3 / 64) :: b64Char (b3 % 64) :: btoa rest

/-- The slice loop of `arrayBufferToBase64`: the binary string accumulated
chunk by chunk, 0x8000 bytes at a time. -/
def chunkConcat (l : List Nat) : List Nat :=
  if _hl : l = [] then []
  else l.take B64_SLICE_SIZE ++ chunkConcat (l.drop B64_SLICE_SIZE)
termination_by l.length
decreasing_by
  have hpos : 0 < l.length := List.length_pos.mpr _hl
  simp [List.length_drop, B64_SLICE_SIZE]
  omega

/-- `arrayBufferToBase64`: base64 of the chunk-built binary string. -/
def arrayBufferToBase64 (bytes : List Nat) : List Char :=
  btoa (chunkConcat bytes)

/-- The naive single-pass encoding of the claim: one conversion of the whole
buffer, one `btoa`. -/
def naiveBase64 (bytes : List Nat) : List Char :=
  btoa bytes

theorem chunkConcat_id (l : List Nat) : chunkConcat l = l := by
  generalize hn : l.length = n
  induction n using Nat.strong_induction_on generalizing l with
  | _ n ih =>
    rw [chunkConcat]
    split
    · rename_i h; rw [h]
    · rename_i h
      have hpos : 0 < l.length := List.length_pos.mpr h
      rw [ih (l.drop B64_SLICE_SIZE).length
        (by simp [List.length_drop, B64_SLICE_SIZE]; omega) _ rfl]
      exact List.take_append_drop _ l

/-- C10: for every byte buffer, the 32 KiB-sliced `arrayBufferToBase64`
produces exactly the base64 string of the naive single-pass encoding. -/
theorem c10_base64_chunked_eq (bytes : List Nat) :
    arrayBufferToBase64 bytes = naiveBase64 bytes := by
  rw [arrayBufferToBase64, naiveBase64, chunkConcat_id]

end GistCloudflare
